import Mathlib

/-!
Verification development for the claude-voice streaming pipeline.

Strings are embedded as `List Char` (`Str`); character classes are the
ASCII fragment actually exercised by the pipeline's inputs.  Python string
primitives (`strip`, `lstrip`, `count`, slicing) are embedded one-to-one.
-/

set_option maxRecDepth 100000

deriving instance DecidableEq for Except

abbrev Str := List Char

/-- ASCII whitespace, the fragment of Python `str.isspace` / `strip` used here. -/
def isSpaceChar (c : Char) : Bool :=
  c == ' ' || c == '\t' || c == '\n' || c == '\r'

/-- ASCII uppercase test, the fragment of Python `str.isupper` used here. -/
def isUpperChar (c : Char) : Bool :=
  'A' ≤ c && c ≤ 'Z'

/-- ASCII digit test, Python `\d` over the inputs considered. -/
def isDigitChar (c : Char) : Bool :=
  '0' ≤ c && c ≤ '9'

/-- ASCII lowercasing, the fragment of Python `str.lower` used here. -/
def lowerChar (c : Char) : Char :=
  if isUpperChar c then Char.ofNat (c.toNat + 32) else c

/-- Python `str.lower` on the whole string. -/
def listLower (s : Str) : Str := s.map lowerChar

/-- Python `str.lstrip()`. -/
def pyLstrip (s : Str) : Str := s.dropWhile isSpaceChar

/-- Python `str.rstrip()`. -/
def pyRstrip (s : Str) : Str := (s.reverse.dropWhile isSpaceChar).reverse

/-- Python `str.strip()`. -/
def pyStrip (s : Str) : Str := pyRstrip (pyLstrip s)

/-- Python `str.startswith`. -/
def startsWithL (pre s : Str) : Bool := List.isPrefixOf pre s

/-- Python `str.endswith`. -/
def endsWithL (suf s : Str) : Bool := List.isPrefixOf suf.reverse s.reverse

/-- The single-quote character, ASCII 39. -/
def squote : Char := Char.ofNat 39

/-- One-character-per-token stream of a text, as in the spec's streaming tests. -/
def charTokens (s : Str) : List Str := s.map (fun c => [c])

/-- Claim C1's reconstruction: each emitted sentence trimmed, rejoined with single spaces. -/
def reconstruct (sentences : List Str) : Str :=
  List.intercalate [' '] (sentences.map pyStrip)

namespace ChunkerV1

/-! Embedding of `src/llm/chunker.py` (`SentenceChunker`). -/

/-- Sentence terminators of `chunker.py`. -/
def terminators : List Char := ['.', '!', '?']

/-- Abbreviation suffixes of `chunker.py` (stored with their trailing dot). -/
def abbreviations : List Str :=
  ["mr.".toList, "mrs.".toList, "ms.".toList, "dr.".toList, "prof.".toList,
   "sr.".toList, "jr.".toList, "i.e.".toList, "e.g.".toList, "etc.".toList,
   "vs.".toList, "inc.".toList, "ltd.".toList, "corp.".toList]

/-- `SentenceChunker._has_sentence_boundary`: any terminator occurs in the text. -/
def has_sentence_boundary (text : Str) : Bool :=
  text.any (fun c => terminators.contains c)

/-- Scan of `_extract_sentence`'s candidate loop over terminator positions. -/
def extractFrom (min_sentence_length : Nat) (text : Str) : List Nat → Str
  | [] => []
  | pos :: rest =>
    let sentence := pyStrip (text.take (pos + 1))
    if abbreviations.any (fun ab => endsWithL ab (listLower sentence)) then
      extractFrom min_sentence_length text rest
    else if sentence.length < min_sentence_length then
      extractFrom min_sentence_length text rest
    else
      sentence

/-- `SentenceChunker._extract_sentence`: first candidate sentence that is neither
an abbreviation suffix nor shorter than the minimum; `[]` when none qualifies. -/
def extract_sentence (min_sentence_length : Nat) (text : Str) : Str :=
  let positions := (List.range text.length).filter
    (fun i => terminators.contains (text.getD i ' '))
  extractFrom min_sentence_length text positions

/-- One token step of `SentenceChunker.chunk_stream`: state is (buffer, emitted). -/
def streamStep (min_sentence_length : Nat) (st : Str × List Str) (token : Str) :
    Str × List Str :=
  let buffer := st.1 ++ token
  if has_sentence_boundary buffer then
    let sentence := extract_sentence min_sentence_length buffer
    if sentence ≠ [] ∧ min_sentence_length ≤ sentence.length then
      (pyLstrip (buffer.drop sentence.length), st.2 ++ [sentence])
    else (buffer, st.2)
  else (buffer, st.2)

/-- `SentenceChunker.chunk_stream` run to completion on a finite token stream,
including the final flush of the remaining buffer. -/
def chunk_stream (min_sentence_length : Nat) (tokens : List Str) : List Str :=
  let st := tokens.foldl (streamStep min_sentence_length) ([], [])
  if pyStrip st.1 ≠ [] then st.2 ++ [pyStrip st.1] else st.2

end ChunkerV1

namespace ChunkerFixed

/-! Embedding of `src/llm/chunker_fixed.py` (`SentenceChunker`). -/

/-- Abbreviations of `chunker_fixed.py` (stored without the trailing dot). -/
def abbreviations : List Str :=
  ["mr".toList, "mrs".toList, "ms".toList, "dr".toList, "prof".toList,
   "sr".toList, "jr".toList, "i.e".toList, "e.g".toList, "etc".toList,
   "vs".toList, "inc".toList, "ltd".toList, "corp".toList,
   "st".toList, "ave".toList, "blvd".toList, "dept".toList, "fig".toList,
   "vol".toList, "no".toList]

/-- `_is_inside_quotes`: an odd count of double or single quotes. -/
def is_inside_quotes (text : Str) : Bool :=
  text.count '"' % 2 ≠ 0 || text.count squote % 2 ≠ 0

/-- `_ends_with_decimal`: the regex search for `\d+\.\d*$` — after dropping the
maximal trailing digit run there must be a dot preceded by a digit. -/
def ends_with_decimal (text : Str) : Bool :=
  match text.reverse.dropWhile isDigitChar with
  | '.' :: c :: _ => isDigitChar c
  | _ => false

/-- A suffix holds no whitespace (regex `[^\s]*\.?$` reaching the end). -/
def noSpaceTail (s : Str) : Bool := !s.any isSpaceChar

/-- `_ends_with_url`: case-insensitive search for `(www\.|https?://)[^\s]*\.?$` —
some occurrence of a URL marker followed only by non-whitespace to the end. -/
def ends_with_url (text : Str) : Bool :=
  (listLower text).tails.any (fun t =>
    (startsWithL "www.".toList t && noSpaceTail (t.drop 4)) ||
    (startsWithL "http://".toList t && noSpaceTail (t.drop 7)) ||
    (startsWithL "https://".toList t && noSpaceTail (t.drop 8)))

/-- `_ends_with_incomplete_ellipsis`: the text ends with `.` or `..`. -/
def ends_with_incomplete_ellipsis (text : Str) : Bool :=
  endsWithL ".".toList text || endsWithL "..".toList text

/-- `_ends_with_abbreviation`: lowercased, right-stripped text ends with a listed
abbreviation plus a dot. -/
def ends_with_abbreviation (text : Str) : Bool :=
  let t := pyRstrip (listLower text)
  abbreviations.any (fun ab => endsWithL (ab ++ ['.']) t)

/-- `_is_false_boundary`: abbreviation on the stripped lowercased sentence, or a
decimal or URL ending on the raw sentence. -/
def is_false_boundary (sentence : Str) : Bool :=
  let sl := pyStrip (listLower sentence)
  abbreviations.any (fun ab => endsWithL (ab ++ ['.']) sl) ||
  ends_with_decimal sentence || ends_with_url sentence

/-- One character step of the boundary scan inside `_extract_sentences`;
`text` is the whole buffer, state is (sentences, current). -/
def scanStep (min_sentence_length : Nat) (text : Str)
    (st : List Str × Str) (c : Char) : List Str × Str :=
  let current := st.2 ++ [c]
  if (c == '.' || c == '!' || c == '?') && min_sentence_length ≤ current.length then
    let remaining := text.drop current.length
    let boundary :=
      match remaining with
      | [] => true
      | r0 :: rest =>
        match rest with
        | [] => false
        | r1 :: _ => isSpaceChar r0 && isUpperChar r1
    if boundary then
      if !is_false_boundary current then (st.1 ++ [pyStrip current], [])
      else (st.1, current)
    else (st.1, current)
  else (st.1, current)

/-- `SentenceChunker._extract_sentences`: suppression rules 1–5, then the
boundary scan; the last returned fragment may be incomplete. -/
def extract_sentences (min_sentence_length : Nat) (text : Str) : List Str :=
  if text = [] then []
  else if is_inside_quotes text || ends_with_decimal text || ends_with_url text ||
      ends_with_incomplete_ellipsis text || ends_with_abbreviation text then
    [text]
  else
    let st := text.foldl (scanStep min_sentence_length text) ([], [])
    let sentences := if st.2 ≠ [] then st.1 ++ [st.2] else st.1
    if sentences = [] then [text] else sentences

/-- One token step of `chunk_stream`: emit all complete sentences long enough,
keep the last fragment in the buffer. -/
def streamStep (min_sentence_length : Nat) (st : Str × List Str) (token : Str) :
    Str × List Str :=
  let buffer := st.1 ++ token
  let sentences := extract_sentences min_sentence_length buffer
  if sentences ≠ [] then
    let emitted := sentences.dropLast.filter
      (fun s => min_sentence_length ≤ s.length)
    ((sentences.getLast?).getD [], st.2 ++ emitted)
  else (buffer, st.2)

/-- `SentenceChunker.chunk_stream` run to completion on a finite token stream,
including the final flush of the remaining buffer. -/
def chunk_stream (min_sentence_length : Nat) (tokens : List Str) : List Str :=
  let st := tokens.foldl (streamStep min_sentence_length) ([], [])
  if pyStrip st.1 ≠ [] then st.2 ++ [pyStrip st.1] else st.2

end ChunkerFixed

/-! ## Events and the pipeline orchestrator (`src/core/events.py`, `src/core/pipeline.py`) -/

/-- Pipeline event kinds of `EventType` used by the orchestrator path. -/
inductive EventKind where
  | pipeline_start
  | pipeline_complete
  | pipeline_error
  | sentence_ready
  deriving DecidableEq, Repr

/-- A recorded pipeline event: Unix timestamp (embedded as an exact rational)
and kind.  Payloads are not needed by the claims settled here. -/
structure PEvent where
  timestamp : ℚ
  kind : EventKind
  deriving DecidableEq, Repr

/-- Callbacks of `InMemoryEventObserver`: a listener either returns or raises. -/
def runCallbacksFrom {ε : Type} (ev : PEvent) (i : Nat) :
    List (PEvent → Except ε Unit) → List Nat × Except ε Unit
  | [] => ([], Except.ok ())
  | cb :: rest =>
    match cb ev with
    | Except.ok _ =>
      let r := runCallbacksFrom ev (i + 1) rest
      (i :: r.1, r.2)
    | Except.error e => ([i], Except.error e)

/-- `InMemoryEventObserver.emit`: append one event with the current timestamp,
then call every registered callback in order; a raising callback stops the loop
and its exception escapes `emit`.  Returns the new event log, the indices of
the callbacks that were invoked, and the outcome of the callback loop. -/
def observerEmit {ε : Type} (now : ℚ) (events : List PEvent)
    (callbacks : List (PEvent → Except ε Unit)) (kind : EventKind) :
    List PEvent × List Nat × Except ε Unit :=
  let ev : PEvent := ⟨now, kind⟩
  (events ++ [ev], runCallbacksFrom ev 0 callbacks)

/-- First error among a list of task results, `Except.ok ()` when none —
the outcome of `asyncio.gather` over the dispatched synthesis tasks. -/
def firstError {ε : Type} : List (Except ε Unit) → Except ε Unit
  | [] => Except.ok ()
  | Except.ok _ :: rest => firstError rest
  | Except.error e :: _ => Except.error e

/-- `VoicePipeline._process_text_query`: stream the tokens through the fixed
chunker, dispatch one synthesis task per emitted sentence in emission order,
then await them all.  Returns the `sentence_ready` events, the ordered
dispatches, and the joined outcome. -/
def process_text_query {ε : Type} (speak : Str → Except ε Unit)
    (min_sentence_length : Nat) (tokens : List Str) :
    List EventKind × List Str × Except ε Unit :=
  let sentences := ChunkerFixed.chunk_stream min_sentence_length tokens
  (sentences.map (fun _ => EventKind.sentence_ready), sentences,
   firstError (sentences.map speak))

/-- `VoicePipeline.process_text`: start event, core text query, completion
event on success, failure event then re-raise on error. -/
def process_text {ε : Type} (speak : Str → Except ε Unit)
    (min_sentence_length : Nat) (tokens : List Str) :
    List EventKind × List Str × Except ε Unit :=
  let q := process_text_query speak min_sentence_length tokens
  match q.2.2 with
  | Except.ok _ =>
    (EventKind.pipeline_start :: q.1 ++ [EventKind.pipeline_complete],
     q.2.1, Except.ok ())
  | Except.error e =>
    (EventKind.pipeline_start :: q.1 ++ [EventKind.pipeline_error],
     q.2.1, Except.error e)

/-- `VoicePipeline.process_audio`: start event; a failing transcription emits a
failure event and re-raises; an empty (falsy) transcript emits a failure event
and returns the empty string without raising; otherwise the text query runs and
the run completes or fails as in `process_text`.  `llmOf` is the generation
capability: the token stream obtained for a transcript. -/
def process_audio {ε : Type} (transcribeResult : Except ε Str)
    (llmOf : Str → List Str) (speak : Str → Except ε Unit)
    (min_sentence_length : Nat) :
    List EventKind × List Str × Except ε Str :=
  match transcribeResult with
  | Except.error e =>
    ([EventKind.pipeline_start, EventKind.pipeline_error], [], Except.error e)
  | Except.ok transcript =>
    if transcript = [] then
      ([EventKind.pipeline_start, EventKind.pipeline_error], [], Except.ok [])
    else
      let q := process_text_query speak min_sentence_length (llmOf transcript)
      match q.2.2 with
      | Except.ok _ =>
        (EventKind.pipeline_start :: q.1 ++ [EventKind.pipeline_complete],
         q.2.1, Except.ok transcript)
      | Except.error e =>
        (EventKind.pipeline_start :: q.1 ++ [EventKind.pipeline_error],
         q.2.1, Except.error e)

/-! ## Retry executor (`src/core/retry.py`) -/

/-- Result of a `retry_async` run: a returned value, a raised exception, or the
unreachable `RuntimeError("Retry logic error")` fallthrough. -/
inductive RetryOutcome (ε α : Type) where
  | ok (v : α)
  | err (e : ε)
  | logicError
  deriving DecidableEq, Repr

/-- The attempt loop of `retry_async`.  `op i` is the outcome of the i-th
invocation (0-indexed); `retryable` embeds membership in
`retryable_exceptions`; `remaining` is the number of loop iterations left.
A non-retryable exception escapes the `except` clause immediately; a retryable
one on the last attempt is re-raised unchanged.  Returns the outcome and the
total number of invocations made.  Backoff sleeps do not affect the result and
are not modelled here (see `get_delay_ms`). -/
def retryRun {ε α : Type} (retryable : ε → Bool) (op : Nat → Except ε α) :
    Nat → Nat → RetryOutcome ε α × Nat
  | _, 0 => (RetryOutcome.logicError, 0)
  | attempt, remaining + 1 =>
    match op attempt with
    | Except.ok v => (RetryOutcome.ok v, attempt + 1)
    | Except.error e =>
      if retryable e then
        if remaining = 0 then (RetryOutcome.err e, attempt + 1)
        else retryRun retryable op (attempt + 1) remaining
      else (RetryOutcome.err e, attempt + 1)

/-- `retry_async` with `max_attempts` attempts: run the loop from attempt 0.
The invocation count is the second component. -/
def retry_async {ε α : Type} (retryable : ε → Bool) (max_attempts : Nat)
    (op : Nat → Except ε α) : RetryOutcome ε α × Nat :=
  retryRun retryable op 0 max_attempts

/-- `RetryConfig.get_delay_ms`: exponential backoff capped at the maximum, the
jitter drawn from `random.random()` passed in as `rand ∈ [0,1)`. -/
def get_delay_ms (initial_delay_ms max_delay_ms exponential_base : ℚ)
    (jitter : Bool) (rand : ℚ) (attempt : Nat) : ℚ :=
  let delay := min (initial_delay_ms * exponential_base ^ attempt) max_delay_ms
  if jitter then delay * (1 + (rand - 1/2) * (1/2)) else delay

/-! ## Rate limiter (`src/core/retry.py`, `RateLimiter`) -/

/-- `RateLimiter.__init__` bucket size: Python `bucket_size or
int(tokens_per_second)` — `None` and `0` both fall back to the truncated rate. -/
def bucketSizeOf (tokens_per_second : ℚ) (bucket_size : Option Nat) : Nat :=
  match bucket_size with
  | some b => if b = 0 then (⌊tokens_per_second⌋).toNat else b
  | none => (⌊tokens_per_second⌋).toNat

/-- One refill of `RateLimiter.acquire`: elapsed time times the rate, capped at
the bucket size. -/
def refill (bucket_size : Nat) (tokens_per_second tokens elapsed : ℚ) : ℚ :=
  min (bucket_size : ℚ) (tokens + elapsed * tokens_per_second)

/-- The wait-and-recheck loop of `RateLimiter.acquire` under idealized time:
each `asyncio.sleep(wait_time)` advances the clock by exactly `wait_time`, so
the next refill sees `elapsed = wait_time`.  `fuel` bounds the number of loop
iterations inspected; `some remaining` means the call returned within that many
iterations with `remaining` tokens left, `none` that it was still suspended. -/
def acquireLoop (bucket_size : Nat) (tokens_per_second n : ℚ) :
    Nat → ℚ → ℚ → Option ℚ
  | 0, _, _ => none
  | fuel + 1, tokens, elapsed =>
    if n ≤ refill bucket_size tokens_per_second tokens elapsed then
      some (refill bucket_size tokens_per_second tokens elapsed - n)
    else
      acquireLoop bucket_size tokens_per_second n fuel
        (refill bucket_size tokens_per_second tokens elapsed)
        ((n - refill bucket_size tokens_per_second tokens elapsed) / tokens_per_second)

/-! ## Audio validation and normalization (`src/audio/`) -/

/-- `AudioFormat` of `src/audio/types.py`. -/
inductive AudioFormat where
  | wav
  | mp3
  | flac
  | aiff
  | pcm
  deriving DecidableEq, Repr

/-- `AudioData` of `src/audio/types.py`: raw bytes (each entry one byte),
sample rate, format, channel count, optional duration in milliseconds. -/
structure AudioData where
  data : List Nat
  sample_rate : Nat
  format : AudioFormat
  channels : Nat
  duration_ms : Option ℚ
  deriving DecidableEq, Repr

/-- `AudioData.size_bytes`. -/
def AudioData.size_bytes (a : AudioData) : Nat := a.data.length

/-- Audio exceptions of `src/audio/exceptions.py` relevant to validation and
normalization, carrying the constructor arguments the claims mention. -/
inductive AudioErr where
  | tooShort (duration_ms minimum_ms : ℚ)
  | tooLarge (size_mb maximum_mb : ℚ)
  | formatError
  | normalizationError
  deriving DecidableEq, Repr

/-- `WHISPER_MIN_DURATION_MS`. -/
def WHISPER_MIN_DURATION_MS : ℚ := 100

/-- `WHISPER_MAX_FILE_SIZE_MB`. -/
def WHISPER_MAX_FILE_SIZE_MB : ℚ := 25

/-- The size and container-format checks of `validate_audio_for_whisper`, the
straight-line remainder after the duration check. -/
def validate_size_and_format (a : AudioData) : Except AudioErr Unit :=
  if WHISPER_MAX_FILE_SIZE_MB < (a.size_bytes : ℚ) / (1024 * 1024) then
    Except.error
      (AudioErr.tooLarge ((a.size_bytes : ℚ) / (1024 * 1024)) WHISPER_MAX_FILE_SIZE_MB)
  else if a.format = AudioFormat.wav ∨ a.format = AudioFormat.flac ∨
      a.format = AudioFormat.mp3 then
    Except.ok ()
  else Except.error AudioErr.formatError

/-- `validate_audio_for_whisper`: duration check (guarded by the truthiness of
`duration_ms`, so `None` and `0` skip it), then size check in MB, then
container format check. -/
def validate_audio_for_whisper (a : AudioData) : Except AudioErr Unit :=
  match a.duration_ms with
  | some d =>
    if d ≠ 0 ∧ d < WHISPER_MIN_DURATION_MS then
      Except.error (AudioErr.tooShort d WHISPER_MIN_DURATION_MS)
    else validate_size_and_format a
  | none => validate_size_and_format a

/-- `_parse_pcm_samples` at 16 bits: little-endian signed 16-bit pairs scaled
to [-1, 1]; an odd byte count makes `struct.unpack` raise. -/
def parse_pcm_samples : List Nat → Except Unit (List ℚ)
  | [] => Except.ok []
  | [_] => Except.error ()
  | b0 :: b1 :: rest =>
    let v : Nat := b0 % 256 + 256 * (b1 % 256)
    let signed : Int := if v < 32768 then (v : Int) else (v : Int) - 65536
    match parse_pcm_samples rest with
    | Except.error e => Except.error e
    | Except.ok s => Except.ok ((signed : ℚ) / 32768 :: s)

/-- Modelled from the stdlib `wave` module used by `_parse_wav_samples`: for
the canonical WAV files this pipeline produces, the PCM frames start at byte
offset 44 (RIFF/fmt/data header); header validation is not modelled. -/
def parse_wav_samples (data : List Nat) : Except Unit (List ℚ) :=
  parse_pcm_samples (data.drop 44)

/-- `_parse_audio_to_samples` at the default 16 bits per sample. -/
def parse_audio_to_samples (a : AudioData) : Except Unit (List ℚ) :=
  if a.format = AudioFormat.wav then parse_wav_samples a.data
  else parse_pcm_samples a.data

/-- The frames `samples[i:i+channels]` iterated by `_convert_to_mono`. -/
def toFrames (channels : Nat) : List ℚ → List (List ℚ)
  | [] => []
  | x :: xs => (x :: xs.take (channels - 1)) :: toFrames channels (xs.drop (channels - 1))
termination_by l => l.length
decreasing_by
  simp only [List.length_cons, List.length_drop]
  omega

/-- `_convert_to_mono`: average each frame (the final frame may be short). -/
def convert_to_mono (samples : List ℚ) (channels : Nat) : List ℚ :=
  (toFrames channels samples).map (fun f => f.sum / (f.length : ℚ))

/-- Python `int()` truncation toward zero on an exact rational. -/
def truncQ (q : ℚ) : Int :=
  if 0 ≤ q then ⌊q⌋ else -⌊-q⌋

/-- `_resample`: linear interpolation from `from_rate` to `to_rate`. -/
def resample (samples : List ℚ) (from_rate to_rate : Nat) : List ℚ :=
  if from_rate = to_rate then samples
  else
    let r : ℚ := (to_rate : ℚ) / (from_rate : ℚ)
    let new_length : Nat := (truncQ ((samples.length : ℚ) * r)).toNat
    (List.range new_length).map (fun i =>
      let old_index : ℚ := (i : ℚ) / r
      let index_floor : Nat := (truncQ old_index).toNat
      let index_ceil : Nat := min (index_floor + 1) (samples.length - 1)
      if index_floor = index_ceil then samples.getD index_floor 0
      else
        let fraction := old_index - (index_floor : ℚ)
        samples.getD index_floor 0 * (1 - fraction) +
          samples.getD index_ceil 0 * fraction)

/-- Little-endian 16-bit byte pair. -/
def le16 (v : Nat) : List Nat := [v % 256, v / 256 % 256]

/-- Little-endian 32-bit byte quadruple. -/
def le32 (v : Nat) : List Nat :=
  [v % 256, v / 256 % 256, v / 65536 % 256, v / 16777216 % 256]

/-- Byte value of one character (ASCII), for the RIFF magic strings. -/
def asciiBytes (s : Str) : List Nat := s.map Char.toNat

/-- Modelled from the stdlib `wave` module as used by `_samples_to_wav`: the
canonical 44-byte RIFF/WAVE header for mono 16-bit PCM at `sample_rate` with
`data_len` bytes of frames. -/
def wavHeader (sample_rate data_len : Nat) : List Nat :=
  asciiBytes "RIFF".toList ++ le32 (36 + data_len) ++ asciiBytes "WAVE".toList ++
  asciiBytes "fmt ".toList ++ le32 16 ++ le16 1 ++ le16 1 ++
  le32 sample_rate ++ le32 (sample_rate * 2) ++ le16 2 ++ le16 16 ++
  asciiBytes "data".toList ++ le32 data_len

/-- `_samples_to_wav`: clamp to [-1, 1], scale to 16-bit PCM with `int()`
truncation, pack little-endian, and prepend the WAV header. -/
def samples_to_wav (samples : List ℚ) (sample_rate : Nat) : List Nat :=
  let pcm := samples.flatMap (fun s =>
    let v : Int := truncQ (max (-1 : ℚ) (min 1 s) * 32767)
    le16 (v % 65536).toNat)
  wavHeader sample_rate pcm.length ++ pcm

/-- `WHISPER_SAMPLE_RATE`. -/
def WHISPER_SAMPLE_RATE : Nat := 16000

/-- The slow path of `normalize_for_whisper` up to (not including) the final
validation: parse to samples, downmix, resample, re-encode, recompute the
duration.  A parse failure becomes `AudioNormalizationError`. -/
def slow_normalized (a : AudioData) : Except AudioErr AudioData :=
  match parse_audio_to_samples a with
  | Except.error _ => Except.error AudioErr.normalizationError
  | Except.ok samples =>
    let samples := if 1 < a.channels then convert_to_mono samples a.channels else samples
    let samples :=
      if a.sample_rate ≠ WHISPER_SAMPLE_RATE then
        resample samples a.sample_rate WHISPER_SAMPLE_RATE
      else samples
    let wav_data := samples_to_wav samples WHISPER_SAMPLE_RATE
    Except.ok
      { data := wav_data
        sample_rate := WHISPER_SAMPLE_RATE
        format := AudioFormat.wav
        channels := 1
        duration_ms := some ((samples.length : ℚ) / (WHISPER_SAMPLE_RATE : ℚ) * 1000) }

/-- `normalize_for_whisper`: on the already-normalized fast path validate and
return the input unchanged; otherwise normalize, validate the result, and
return it.  Validation errors pass through unchanged on both paths. -/
def normalize_for_whisper (a : AudioData) : Except AudioErr AudioData :=
  if a.sample_rate = WHISPER_SAMPLE_RATE ∧ a.channels = 1 ∧
      a.format = AudioFormat.wav then
    match validate_audio_for_whisper a with
    | Except.error e => Except.error e
    | Except.ok _ => Except.ok a
  else
    match slow_normalized a with
    | Except.error e => Except.error e
    | Except.ok n =>
      match validate_audio_for_whisper n with
      | Except.error e => Except.error e
      | Except.ok _ => Except.ok n

/-! ## Conversation history (`src/llm/claude_api.py`) -/

/-- A `{role, content}` turn of the conversation history. -/
structure HistoryMsg where
  role : Str
  content : Str
  deriving DecidableEq, Repr

/-- `ClaudeAPI.MAX_HISTORY_TURNS`. -/
def MAX_HISTORY_TURNS : Nat := 50

/-- The user-message append of `query_stream` followed by its trim to the last
`MAX_HISTORY_TURNS` entries (`history[-50:]`, oldest dropped first). -/
def appendUserAndTrim (history : List HistoryMsg) (text : Str) : List HistoryMsg :=
  let h := history ++ [⟨"user".toList, text⟩]
  if MAX_HISTORY_TURNS < h.length then h.drop (h.length - MAX_HISTORY_TURNS) else h

/-- The history mutation of one successful `ClaudeAPI.query_stream` call: the
user message is appended and the history trimmed, then after streaming the
assistant response is appended with no further trim. -/
def query_stream_history (history : List HistoryMsg) (userText assistantText : Str) :
    List HistoryMsg :=
  appendUserAndTrim history userText ++ [⟨"assistant".toList, assistantText⟩]

/-! # Theorems

Helper lemmas first, then one theorem per claim (with witness or
counterexample theorems where required). -/

/-- Helper: a retryable failure on every attempt of the window makes the loop
run the whole window and re-raise the last failure unchanged. -/
theorem retryRun_exhaust {ε α : Type} (retryable : ε → Bool) (op : Nat → Except ε α) :
    ∀ (m attempt : Nat),
      (∀ i, attempt ≤ i → i < attempt + m → ∃ e, op i = Except.error e ∧ retryable e = true) →
      ∀ e, op (attempt + m) = Except.error e → retryable e = true →
      retryRun retryable op attempt (m + 1) = (RetryOutcome.err e, attempt + m + 1) := by
  intro m
  induction m with
  | zero =>
    intro attempt _ e he hre
    rw [Nat.add_zero] at he
    simp [retryRun, he, hre]
  | succ m ih =>
    intro attempt hall e he hre
    obtain ⟨e0, he0, hr0⟩ := hall attempt le_rfl (by omega)
    have hstep : retryRun retryable op attempt (m + 1 + 1) =
        retryRun retryable op (attempt + 1) (m + 1) := by
      simp [retryRun, he0, hr0]
    rw [hstep]
    have hidx : attempt + 1 + m = attempt + (m + 1) := by omega
    have hres := ih (attempt + 1)
      (fun i h1 h2 => hall i (by omega) (by omega))
      e (by rw [hidx]; exact he) hre
    exact hres.trans (congrArg (fun x => (RetryOutcome.err e, x)) (by omega))

/-- Helper: retryable failures up to the first success make the loop return
that success after exactly one more invocation. -/
theorem retryRun_success {ε α : Type} (retryable : ε → Bool) (op : Nat → Except ε α) :
    ∀ (k attempt m : Nat) (v : α), k < m →
      op (attempt + k) = Except.ok v →
      (∀ i, attempt ≤ i → i < attempt + k → ∃ e, op i = Except.error e ∧ retryable e = true) →
      retryRun retryable op attempt m = (RetryOutcome.ok v, attempt + k + 1) := by
  intro k
  induction k with
  | zero =>
    intro attempt m v hk hok _
    match m, hk with
    | m + 1, _ =>
      rw [Nat.add_zero] at hok
      simp [retryRun, hok]
  | succ k ih =>
    intro attempt m v hk hok hall
    match m, hk with
    | m + 1, _ =>
      obtain ⟨e0, he0, hr0⟩ := hall attempt le_rfl (by omega)
      have hm : m ≠ 0 := by omega
      have hstep : retryRun retryable op attempt (m + 1) =
          retryRun retryable op (attempt + 1) m := by
        simp [retryRun, he0, hr0, hm]
      rw [hstep]
      have hidx : attempt + 1 + k = attempt + (k + 1) := by omega
      have hres := ih (attempt + 1) m v (by omega)
        (by rw [hidx]; exact hok)
        (fun i h1 h2 => hall i (by omega) (by omega))
      exact hres.trans (congrArg (fun x => (RetryOutcome.ok v, x)) (by omega))

/-- Helper: when every callback succeeds on the event, they are all invoked in
order and the loop returns normally. -/
theorem runCallbacksFrom_all_ok {ε : Type} (ev : PEvent) :
    ∀ (cbs : List (PEvent → Except ε Unit)) (i : Nat),
      (∀ cb ∈ cbs, cb ev = Except.ok ()) →
      runCallbacksFrom ev i cbs = (List.range' i cbs.length, Except.ok ()) := by
  intro cbs
  induction cbs with
  | nil => intro i _; rfl
  | cons cb rest ih =>
    intro i h
    have hcb : cb ev = Except.ok () := h cb (by simp)
    simp only [runCallbacksFrom, hcb, List.length_cons]
    rw [List.range'_succ, ih (i + 1) (fun c hc => h c (by simp [hc]))]

/-- Helper: the first raising callback stops the loop after being invoked and
its exception escapes. -/
theorem runCallbacksFrom_first_err {ε : Type} (ev : PEvent) :
    ∀ (pre : List (PEvent → Except ε Unit)) (bad : PEvent → Except ε Unit)
      (post : List (PEvent → Except ε Unit)) (e : ε) (i : Nat),
      (∀ cb ∈ pre, cb ev = Except.ok ()) → bad ev = Except.error e →
      runCallbacksFrom ev i (pre ++ bad :: post) =
        (List.range' i (pre.length + 1), Except.error e) := by
  intro pre
  induction pre with
  | nil =>
    intro bad post e i _ hbad
    simp [runCallbacksFrom, hbad, List.range'_succ]
  | cons cb rest ih =>
    intro bad post e i h hbad
    have hcb : cb ev = Except.ok () := h cb (by simp)
    simp only [List.cons_append, runCallbacksFrom, hcb, List.length_cons, List.append_eq]
    rw [ih bad post e (i + 1) (fun c hc => h c (by simp [hc])) hbad]
    simp [List.range'_succ]

/-- Helper: once the requested token count exceeds the bucket size, the
wait-and-recheck loop can never return, because every refill caps the token
count at the bucket size. -/
theorem acquireLoop_stuck (bucket_size : Nat) (tokens_per_second n : ℚ)
    (hn : (bucket_size : ℚ) < n) :
    ∀ (fuel : Nat) (tokens elapsed : ℚ),
      acquireLoop bucket_size tokens_per_second n fuel tokens elapsed = none := by
  intro fuel
  induction fuel with
  | zero => intro tokens elapsed; rfl
  | succ fuel ih =>
    intro tokens elapsed
    have hnot : ¬ n ≤ refill bucket_size tokens_per_second tokens elapsed :=
      fun h => absurd (h.trans (min_le_left _ _)) (not_le.mpr hn)
    simp only [acquireLoop, hnot, if_false, ite_false]
    exact ih _ _

/-- Helper: `validate_size_and_format` can only raise `tooLarge` or
`formatError`, never `tooShort`. -/
theorem validate_size_and_format_ne_tooShort (a : AudioData) (d m : ℚ) :
    validate_size_and_format a ≠ Except.error (AudioErr.tooShort d m) := by
  unfold validate_size_and_format
  split
  · intro h; exact AudioErr.noConfusion (Except.error.inj h)
  · split
    · intro h; exact Except.noConfusion h
    · intro h; exact AudioErr.noConfusion (Except.error.inj h)

/-- Claim C1.  The round-trip reconstruction invariant fails on the code: with
`min_sentence_length = 5` and one character per token, `chunker.py` segments
"Hi there. Next one." into ["Hi there.", "Next one.", "."] — the terminator is
duplicated because `_extract_sentence` strips the candidate before the buffer
is sliced by its length — and `chunker_fixed.py` segments "Hello. Hi.. Done."
into ["Hello.", "Done."], silently dropping "Hi.." because `chunk_stream`
discards an extracted sentence whose stripped length falls below the minimum.
In both cases the trimmed, single-space-rejoined concatenation of the emitted
sentences differs from the original text. -/
theorem c1_reconstruction_code_bug :
    ChunkerV1.chunk_stream 5 (charTokens "Hi there. Next one.".toList) =
      ["Hi there.".toList, "Next one.".toList, ".".toList]
    ∧ reconstruct (ChunkerV1.chunk_stream 5 (charTokens "Hi there. Next one.".toList)) ≠
        "Hi there. Next one.".toList
    ∧ ChunkerFixed.chunk_stream 5 (charTokens "Hello. Hi.. Done.".toList) =
      ["Hello.".toList, "Done.".toList]
    ∧ reconstruct (ChunkerFixed.chunk_stream 5 (charTokens "Hello. Hi.. Done.".toList)) ≠
        "Hello. Hi.. Done.".toList := by
  refine ⟨by decide, by decide, by decide, by decide⟩

/-- Claim C2.  Exclusion correctness of the spec's segmenter
(`chunker_fixed.py`): streamed one character per token with
`min_sentence_length = 5`, each of the four probe texts is emitted as a single
sentence equal to the whole input, so no split ever occurs at the decimal
"3.14", inside the URL "www.example.com", at the abbreviation "Dr.", or at the
first one or two dots of the ellipsis. -/
theorem c2_exclusion_correctness :
    ChunkerFixed.chunk_stream 5 (charTokens "The value is 3.14. Next sentence.".toList) =
      ["The value is 3.14. Next sentence.".toList]
    ∧ ChunkerFixed.chunk_stream 5 (charTokens "Visit www.example.com. Done.".toList) =
      ["Visit www.example.com. Done.".toList]
    ∧ ChunkerFixed.chunk_stream 5 (charTokens "Dr. Smith arrived.".toList) =
      ["Dr. Smith arrived.".toList]
    ∧ ChunkerFixed.chunk_stream 5 (charTokens "Wait... then go.".toList) =
      ["Wait... then go.".toList] := by
  refine ⟨by decide, by decide, by decide, by decide⟩

/-- Claim C3.  End-to-end scenario: the text "Hello! How are you? Fine."
streamed one character per token with `min_sentence_length = 5` through the
pipeline (spec's segmenter, always-succeeding synthesis) yields exactly the
ordered sentence list ["Hello!", "How are you?", "Fine."], three synthesis
dispatches in that order, and an event log holding a completion event and no
failure events. -/
theorem c3_end_to_end_scenario :
    process_text (ε := Nat) (fun _ => Except.ok ()) 5
        (charTokens "Hello! How are you? Fine.".toList) =
      ([EventKind.pipeline_start, EventKind.sentence_ready, EventKind.sentence_ready,
        EventKind.sentence_ready, EventKind.pipeline_complete],
       ["Hello!".toList, "How are you?".toList, "Fine.".toList],
       Except.ok ()) := by
  rfl

/-- Claim C4.  Retry exhaustion and success: with `max_attempts = N ≥ 1`, if
every invocation raises a retryable exception then `retry_async` invokes the
operation exactly N times and re-raises the N-th exception unchanged; if some
invocation returns first, `retry_async` returns that value with no further
invocations. -/
theorem c4_retry_exhaustion_and_success {ε α : Type} (retryable : ε → Bool)
    (N : Nat) (op : Nat → Except ε α) (hN : 1 ≤ N) :
    ((∀ i, i < N → ∃ e, op i = Except.error e ∧ retryable e = true) →
      ∀ e, op (N - 1) = Except.error e →
      retry_async retryable N op = (RetryOutcome.err e, N))
    ∧ (∀ k v, k < N → op k = Except.ok v →
      (∀ i, i < k → ∃ e, op i = Except.error e ∧ retryable e = true) →
      retry_async retryable N op = (RetryOutcome.ok v, k + 1)) := by
  obtain ⟨m, rfl⟩ : ∃ m, N = m + 1 := ⟨N - 1, by omega⟩
  constructor
  · intro hall e he
    have hm : m + 1 - 1 = m := by omega
    rw [hm] at he
    obtain ⟨e', he', hre'⟩ := hall m (by omega)
    rw [he] at he'
    cases he'
    have := retryRun_exhaust retryable op m 0
      (fun i h1 h2 => hall i (by omega)) e (by simpa using he) hre'
    simpa [retry_async] using this
  · intro k v hk hok hall
    have := retryRun_success retryable op k 0 (m + 1) v hk (by simpa using hok)
      (fun i h1 h2 => hall i (by omega))
    simpa [retry_async] using this

/-- Claim C4 witness: three attempts, failures on attempts 0 and 1, success on
attempt 2 and exhaustion when all three fail. -/
theorem c4_retry_witness :
    retry_async (fun _ : Nat => true) 3 (fun _ => (Except.error 9 : Except Nat Nat)) =
      (RetryOutcome.err 9, 3)
    ∧ retry_async (fun _ : Nat => true) 3
        (fun i => if i < 2 then (Except.error 9 : Except Nat Nat) else Except.ok 4) =
      (RetryOutcome.ok 4, 3) := by
  constructor
  · exact (c4_retry_exhaustion_and_success (fun _ => true) 3
      (fun _ => Except.error 9) (by norm_num)).1
      (fun i _ => ⟨9, rfl, rfl⟩) 9 rfl
  · exact (c4_retry_exhaustion_and_success (fun _ => true) 3
      (fun i => if i < 2 then Except.error 9 else Except.ok 4) (by norm_num)).2
      2 4 (by norm_num) (by norm_num) (fun i hi => ⟨9, by simp [hi], rfl⟩)

/-- Claim C5 counterexample: with a first listener that raises and a second
that does not, `emit` does record the event, but it raises (so it can fail)
and the second listener is never invoked — the invoked-callback list is [0],
which does not contain 1. -/
theorem c5_counterexample :
    observerEmit (ε := Nat) 0 []
        [fun _ => Except.error 7, fun _ => Except.ok ()] EventKind.sentence_ready =
      ([⟨0, EventKind.sentence_ready⟩], [0], Except.error 7)
    ∧ (1 : Nat) ∉ ([0] : List Nat) := by
  exact ⟨rfl, by decide⟩

/-- Claim C5 amended: `emit` always appends exactly one event with the current
timestamp before running the listeners, so the event is recorded even when a
listener raises; listeners run synchronously in registration order, but only
up to and including the first raising listener, whose exception propagates out
of `emit` — later listeners are not invoked. -/
theorem c5_emit_amended {ε : Type} (now : ℚ) (events : List PEvent)
    (callbacks : List (PEvent → Except ε Unit)) (kind : EventKind) :
    (observerEmit now events callbacks kind).1 = events ++ [⟨now, kind⟩]
    ∧ ((∀ cb ∈ callbacks, cb ⟨now, kind⟩ = Except.ok ()) →
      (observerEmit now events callbacks kind).2 =
        (List.range callbacks.length, Except.ok ()))
    ∧ (∀ pre bad post e, callbacks = pre ++ bad :: post →
      (∀ cb ∈ pre, cb ⟨now, kind⟩ = Except.ok ()) →
      bad ⟨now, kind⟩ = Except.error e →
      (observerEmit now events callbacks kind).2 =
        (List.range (pre.length + 1), Except.error e)) := by
  refine ⟨rfl, ?_, ?_⟩
  · intro h
    show runCallbacksFrom ⟨now, kind⟩ 0 callbacks = _
    rw [runCallbacksFrom_all_ok ⟨now, kind⟩ callbacks 0 h, List.range_eq_range']
  · intro pre bad post e hsplit hpre hbad
    show runCallbacksFrom ⟨now, kind⟩ 0 callbacks = _
    rw [hsplit, runCallbacksFrom_first_err ⟨now, kind⟩ pre bad post e 0 hpre hbad,
      List.range_eq_range']

/-- Claim C5 amended, witness: a succeeding listener followed by a raising one;
the event is recorded, both listeners are invoked in order, and the exception
escapes. -/
theorem c5_emit_amended_witness :
    (observerEmit (ε := Nat) 0 []
        [fun _ => Except.ok (), fun _ => Except.error 3] EventKind.sentence_ready).1 =
      [⟨0, EventKind.sentence_ready⟩]
    ∧ (observerEmit (ε := Nat) 0 []
        [fun _ => Except.ok (), fun _ => Except.error 3] EventKind.sentence_ready).2 =
      (List.range 2, Except.error 3) := by
  constructor
  · exact (c5_emit_amended (ε := Nat) 0 []
      [fun _ => Except.ok (), fun _ => Except.error 3] EventKind.sentence_ready).1
  · exact (c5_emit_amended (ε := Nat) 0 []
      [fun _ => Except.ok (), fun _ => Except.error 3] EventKind.sentence_ready).2.2
      [fun _ => Except.ok ()] (fun _ => Except.error 3) [] 3 rfl
      (by intro cb hcb; rw [List.mem_singleton] at hcb; subst hcb; rfl) rfl

/-- Claim C6.  Audio validation errors: a buffer whose duration is 50 ms fails
validation with a "too short" error carrying (50, 100); a 26 MB buffer whose
duration check passes fails with a "too large" error carrying (26.0, 25.0);
and the checks are applied both on the already-normalized fast path of
`normalize_for_whisper` and on the normalized result of its slow path, with
validation errors passing through unchanged. -/
theorem c6_audio_validation_errors :
    (∀ a : AudioData, a.duration_ms = some 50 →
      validate_audio_for_whisper a =
        Except.error (AudioErr.tooShort 50 WHISPER_MIN_DURATION_MS))
    ∧ (∀ a : AudioData,
      (a.duration_ms = none ∨ ∃ q, a.duration_ms = some q ∧ (q = 0 ∨ 100 ≤ q)) →
      a.size_bytes = 26 * 1024 * 1024 →
      validate_audio_for_whisper a =
        Except.error (AudioErr.tooLarge 26 WHISPER_MAX_FILE_SIZE_MB))
    ∧ (∀ (a : AudioData) (e : AudioErr), a.sample_rate = WHISPER_SAMPLE_RATE →
      a.channels = 1 → a.format = AudioFormat.wav →
      validate_audio_for_whisper a = Except.error e →
      normalize_for_whisper a = Except.error e)
    ∧ (∀ (a n : AudioData) (e : AudioErr),
      ¬(a.sample_rate = WHISPER_SAMPLE_RATE ∧ a.channels = 1 ∧
        a.format = AudioFormat.wav) →
      slow_normalized a = Except.ok n →
      validate_audio_for_whisper n = Except.error e →
      normalize_for_whisper a = Except.error e) := by
  refine ⟨?_, ?_, ?_, ?_⟩
  · intro a hd
    simp only [validate_audio_for_whisper, hd]
    norm_num [WHISPER_MIN_DURATION_MS]
  · intro a hd hs
    have hsize : validate_size_and_format a =
        Except.error (AudioErr.tooLarge 26 WHISPER_MAX_FILE_SIZE_MB) := by
      unfold validate_size_and_format
      rw [hs]
      norm_num [WHISPER_MAX_FILE_SIZE_MB]
    rcases hd with hd | ⟨q, hq, hcase⟩
    · simp only [validate_audio_for_whisper, hd]
      exact hsize
    · simp only [validate_audio_for_whisper, hq]
      rcases hcase with rfl | h100
      · rw [if_neg (by simp)]
        exact hsize
      · rw [if_neg (by rintro ⟨_, h2⟩; rw [WHISPER_MIN_DURATION_MS] at h2; linarith)]
        exact hsize
  · intro a e h1 h2 h3 hv
    unfold normalize_for_whisper
    rw [if_pos ⟨h1, h2, h3⟩, hv]
  · intro a n e hfast hslow hv
    simp [normalize_for_whisper, hfast, hslow, hv]

/-- Claim C6 witness: the 50 ms buffer, the exactly-26 MB buffer, the fast
path on the 50 ms buffer, and an 8 kHz PCM buffer whose normalized result (two
samples, 0.125 ms) fails the post-normalization duration check. -/
theorem c6_audio_validation_errors_witness :
    validate_audio_for_whisper ⟨[0, 0], 16000, AudioFormat.wav, 1, some 50⟩ =
      Except.error (AudioErr.tooShort 50 WHISPER_MIN_DURATION_MS)
    ∧ validate_audio_for_whisper
        ⟨List.replicate (26 * 1024 * 1024) 0, 16000, AudioFormat.wav, 1, none⟩ =
      Except.error (AudioErr.tooLarge 26 WHISPER_MAX_FILE_SIZE_MB)
    ∧ normalize_for_whisper ⟨[0, 0], 16000, AudioFormat.wav, 1, some 50⟩ =
      Except.error (AudioErr.tooShort 50 WHISPER_MIN_DURATION_MS)
    ∧ normalize_for_whisper ⟨[0, 0], 8000, AudioFormat.pcm, 1, none⟩ =
      Except.error (AudioErr.tooShort (1 / 8) WHISPER_MIN_DURATION_MS) := by
  refine ⟨?_, ?_, ?_, ?_⟩
  · exact c6_audio_validation_errors.1 _ rfl
  · exact c6_audio_validation_errors.2.1 _ (Or.inl rfl)
      (by unfold AudioData.size_bytes; exact List.length_replicate ..)
  · exact c6_audio_validation_errors.2.2.1 _ _ rfl rfl rfl (by decide)
  · have hparse : parse_audio_to_samples ⟨[0, 0], 8000, AudioFormat.pcm, 1, none⟩ =
        Except.ok [0] := by
      norm_num [parse_audio_to_samples, parse_pcm_samples]
      intro h
      exact absurd h (by decide)
    have hres : resample [0] 8000 16000 = [0, 0] := by
      norm_num [resample, truncQ, List.range_succ]
      decide
    have hwav : samples_to_wav [0, 0] 16000 = wavHeader 16000 4 ++ [0, 0, 0, 0] := by
      norm_num [samples_to_wav, truncQ, List.flatMap_cons, le16]
    have hslow : slow_normalized ⟨[0, 0], 8000, AudioFormat.pcm, 1, none⟩ =
        Except.ok ⟨wavHeader 16000 4 ++ [0, 0, 0, 0], 16000, AudioFormat.wav, 1,
          some ((2 : ℚ) / 16000 * 1000)⟩ := by
      norm_num [slow_normalized, hparse, hres, hwav, WHISPER_SAMPLE_RATE]
    have hval : validate_audio_for_whisper
        ⟨wavHeader 16000 4 ++ [0, 0, 0, 0], 16000, AudioFormat.wav, 1,
          some ((2 : ℚ) / 16000 * 1000)⟩ =
        Except.error (AudioErr.tooShort (1 / 8) WHISPER_MIN_DURATION_MS) := by
      norm_num [validate_audio_for_whisper, WHISPER_MIN_DURATION_MS]
    exact c6_audio_validation_errors.2.2.2 _ _ _ (by decide) hslow hval

/-- Claim C7 counterexample: a whitespace-only transcript is truthy in Python,
so the run does not fail fast — it proceeds and ends in a normal successful
completion with a completion event and no failure event, contradicting the
claim for whitespace-only transcription results. -/
theorem c7_counterexample :
    process_audio (ε := Nat) (Except.ok " ".toList) charTokens
        (fun _ => Except.ok ()) 5 =
      ([EventKind.pipeline_start, EventKind.pipeline_complete], [],
        Except.ok " ".toList) := by
  rfl

/-- Claim C7 amended: only an exactly-empty transcript is detected, and it is
signalled by an empty-transcript failure event plus an in-band empty-string
return value, not a raised error; whitespace-only transcripts are processed as
normal queries; a transcription exception and any stage exception each emit a
failure event and propagate the error unchanged to the caller, and a
successful run emits a completion event. -/
theorem c7_empty_transcript_amended {ε : Type} (llmOf : Str → List Str)
    (speak : Str → Except ε Unit) (min_sentence_length : Nat) :
    (process_audio (Except.ok []) llmOf speak min_sentence_length =
      ([EventKind.pipeline_start, EventKind.pipeline_error], [], Except.ok []))
    ∧ (∀ e, process_audio (Except.error e) llmOf speak min_sentence_length =
      ([EventKind.pipeline_start, EventKind.pipeline_error], [], Except.error e))
    ∧ (∀ t e, t ≠ [] →
      (process_text_query speak min_sentence_length (llmOf t)).2.2 = Except.error e →
      process_audio (Except.ok t) llmOf speak min_sentence_length =
        (EventKind.pipeline_start ::
          (process_text_query speak min_sentence_length (llmOf t)).1 ++
          [EventKind.pipeline_error],
         (process_text_query speak min_sentence_length (llmOf t)).2.1,
         Except.error e))
    ∧ (∀ t, t ≠ [] →
      (process_text_query speak min_sentence_length (llmOf t)).2.2 = Except.ok () →
      process_audio (Except.ok t) llmOf speak min_sentence_length =
        (EventKind.pipeline_start ::
          (process_text_query speak min_sentence_length (llmOf t)).1 ++
          [EventKind.pipeline_complete],
         (process_text_query speak min_sentence_length (llmOf t)).2.1,
         Except.ok t)) := by
  refine ⟨rfl, fun e => rfl, ?_, ?_⟩
  · intro t e ht hq
    simp only [process_audio]
    rw [if_neg ht, hq]
  · intro t ht hq
    simp only [process_audio]
    rw [if_neg ht, hq]

/-- Claim C7 amended, witness: a failing synthesis stage makes the run emit a
failure event and re-raise the synthesis error to the caller. -/
theorem c7_empty_transcript_amended_witness :
    process_audio (ε := Nat) (Except.ok "Go now. Stop.".toList) charTokens
        (fun _ => Except.error 5) 5 =
      ([EventKind.pipeline_start, EventKind.sentence_ready,
        EventKind.sentence_ready, EventKind.pipeline_error],
       ["Go now.".toList, "Stop.".toList], Except.error 5) := by
  have h := (c7_empty_transcript_amended (ε := Nat) charTokens
    (fun _ => Except.error 5) 5).2.2.1 "Go now. Stop.".toList 5 (by decide) rfl
  exact h.trans rfl

/-- Claim C8 counterexample: starting from an empty history, 26 successful
queries leave the conversation history holding 51 entries — the user-append is
trimmed to 50, but the assistant-append that completes the call is not, so an
append can complete with the bound exceeded. -/
theorem c8_counterexample_history_51 :
    (Nat.iterate (fun h => query_stream_history h "u".toList "a".toList) 26 []).length = 51
    ∧ MAX_HISTORY_TURNS < 51 := by
  exact ⟨by decide, by decide⟩

/-- Claim C8 amended: the trim to the most recent 50 entries happens only on
the user-message append; the assistant append that follows is untrimmed, so
the history can briefly hold 51 entries, and 51 (not 50) is the invariant
bound maintained across calls — after the user-append trim the length is at
most 50, and after the full call at most 51. -/
theorem c8_history_bound_amended (h : List HistoryMsg) (u a : Str) :
    (appendUserAndTrim h u).length ≤ MAX_HISTORY_TURNS
    ∧ (query_stream_history h u a).length ≤ MAX_HISTORY_TURNS + 1 := by
  have h1 : (appendUserAndTrim h u).length ≤ MAX_HISTORY_TURNS := by
    simp only [appendUserAndTrim]
    split
    · rename_i hc
      rw [List.length_drop]
      rw [List.length_append] at hc ⊢
      omega
    · rename_i hc
      omega
  refine ⟨h1, ?_⟩
  unfold query_stream_history
  rw [List.length_append]
  simp only [List.length_singleton]
  omega

/-- Claim C8 amended, witness: the bound holds on a concrete small history. -/
theorem c8_history_bound_amended_witness :
    (appendUserAndTrim [] "u".toList).length ≤ MAX_HISTORY_TURNS
    ∧ (query_stream_history [] "u".toList "a".toList).length ≤
      MAX_HISTORY_TURNS + 1 :=
  c8_history_bound_amended [] "u".toList "a".toList

/-- Claim C9.  Under idealized time (each suspension advances the clock by
exactly the computed wait), `acquire(n)` returns after finitely many loop
iterations if and only if n is at most the bucket size: the refill caps the
token count at the bucket size, so for n above it availability is never
reached; and with the default bucket size `int(tokens_per_second)`, any rate
strictly below 1 token/second yields capacity 0, so even `acquire(1)` never
returns. -/
theorem c9_acquire_termination (bucket_size : Nat) (tokens_per_second : ℚ)
    (n : Nat) (t0 e0 : ℚ) (hr : 0 < tokens_per_second) :
    ((∃ fuel, (acquireLoop bucket_size tokens_per_second (n : ℚ) fuel t0 e0).isSome) ↔
      (n : ℚ) ≤ (bucket_size : ℚ))
    ∧ (∀ r : ℚ, 0 < r → r < 1 → bucketSizeOf r none = 0)
    ∧ (∀ (r : ℚ) (fuel : Nat) (t e : ℚ), 0 < r → r < 1 →
      acquireLoop (bucketSizeOf r none) r 1 fuel t e = none) := by
  have hbzero : ∀ r : ℚ, 0 < r → r < 1 → bucketSizeOf r none = 0 := by
    intro r h0 h1
    unfold bucketSizeOf
    rw [Int.floor_eq_zero_iff.mpr ⟨le_of_lt h0, h1⟩]
    rfl
  refine ⟨⟨?_, ?_⟩, hbzero, ?_⟩
  · rintro ⟨fuel, hfuel⟩
    by_contra hn
    push_neg at hn
    rw [acquireLoop_stuck bucket_size tokens_per_second (n : ℚ) hn fuel t0 e0] at hfuel
    simp at hfuel
  · intro hle
    by_cases h1 : (n : ℚ) ≤ refill bucket_size tokens_per_second t0 e0
    · exact ⟨1, by simp [acquireLoop, h1]⟩
    · refine ⟨2, ?_⟩
      have key : refill bucket_size tokens_per_second
          (refill bucket_size tokens_per_second t0 e0)
          (((n : ℚ) - refill bucket_size tokens_per_second t0 e0) / tokens_per_second) =
          (n : ℚ) := by
        set T := refill bucket_size tokens_per_second t0 e0 with hT
        unfold refill
        rw [div_mul_cancel₀ _ (ne_of_gt hr)]
        have htn : T + ((n : ℚ) - T) = (n : ℚ) := by ring
        rw [htn]
        exact min_eq_right hle
      simp [acquireLoop, h1, key]
  · intro r fuel t e h0 h1
    rw [hbzero r h0 h1]
    exact acquireLoop_stuck 0 r 1 (by norm_num) fuel t e

/-- Claim C9 witness: with capacity 2 and rate 2, `acquire(1)` terminates; and
a rate of one half yields default capacity 0, where `acquire(1)` is still
suspended after any number of loop iterations. -/
theorem c9_acquire_termination_witness :
    (∃ fuel, (acquireLoop 2 2 ((1 : Nat) : ℚ) fuel 2 0).isSome)
    ∧ bucketSizeOf (1 / 2) none = 0
    ∧ acquireLoop (bucketSizeOf (1 / 2) none) (1 / 2) 1 3 0 0 = none := by
  refine ⟨?_, ?_, ?_⟩
  · exact (c9_acquire_termination 2 2 1 2 0 (by norm_num)).1.mpr (by norm_num)
  · exact (c9_acquire_termination 2 2 1 2 0 (by norm_num)).2.1 (1 / 2)
      (by norm_num) (by norm_num)
  · exact (c9_acquire_termination 2 2 1 2 0 (by norm_num)).2.2 (1 / 2) 3 0 0
      (by norm_num) (by norm_num)

/-- Claim C10.  A buffer whose `duration_ms` is `None` or `0` is never
rejected as too short — the duration check is guarded by truthiness — and such
a buffer passes validation outright whenever its size and container format are
acceptable, regardless of how little audio the bytes hold. -/
theorem c10_unknown_duration_skips_short_check :
    (∀ a : AudioData, (a.duration_ms = none ∨ a.duration_ms = some 0) →
      (a.size_bytes : ℚ) / (1024 * 1024) ≤ WHISPER_MAX_FILE_SIZE_MB →
      (a.format = AudioFormat.wav ∨ a.format = AudioFormat.flac ∨
        a.format = AudioFormat.mp3) →
      validate_audio_for_whisper a = Except.ok ())
    ∧ (∀ a : AudioData, (a.duration_ms = none ∨ a.duration_ms = some 0) →
      ∀ d m, validate_audio_for_whisper a ≠
        Except.error (AudioErr.tooShort d m)) := by
  have hsf : ∀ a : AudioData,
      (a.size_bytes : ℚ) / (1024 * 1024) ≤ WHISPER_MAX_FILE_SIZE_MB →
      (a.format = AudioFormat.wav ∨ a.format = AudioFormat.flac ∨
        a.format = AudioFormat.mp3) →
      validate_size_and_format a = Except.ok () := by
    intro a hs hf
    unfold validate_size_and_format
    rw [if_neg (not_lt.mpr hs), if_pos hf]
  constructor
  · intro a hd hs hf
    rcases hd with hd | hd
    · simp only [validate_audio_for_whisper, hd]
      exact hsf a hs hf
    · simp only [validate_audio_for_whisper, hd]
      rw [if_neg (by simp)]
      exact hsf a hs hf
  · intro a hd d m
    rcases hd with hd | hd
    · simp only [validate_audio_for_whisper, hd]
      exact validate_size_and_format_ne_tooShort a d m
    · simp only [validate_audio_for_whisper, hd]
      rw [if_neg (by simp)]
      exact validate_size_and_format_ne_tooShort a d m

/-- Claim C10 witness: a two-byte WAV buffer with unknown duration passes
validation and in particular is not rejected as too short. -/
theorem c10_unknown_duration_witness :
    validate_audio_for_whisper ⟨[0, 0], 16000, AudioFormat.wav, 1, none⟩ =
      Except.ok ()
    ∧ validate_audio_for_whisper ⟨[0, 0], 16000, AudioFormat.wav, 1, none⟩ ≠
      Except.error (AudioErr.tooShort 50 100) := by
  constructor
  · exact c10_unknown_duration_skips_short_check.1 _ (Or.inl rfl)
      (by norm_num [AudioData.size_bytes, WHISPER_MAX_FILE_SIZE_MB]) (Or.inl rfl)
  · exact c10_unknown_duration_skips_short_check.2 _ (Or.inl rfl) 50 100
